import Mathlib

deriving instance DecidableEq for Except

/-!
Verification development for the open_disaster agent pipeline
(backend/orchestrator.py, backend/agents/disaster_type_agent.py,
backend/agents/geocoding_agent.py, backend/agents/base_agent.py).

The shared context is a Python dict with string keys; we embed it as an
association list whose update operation mirrors `dict.update` /
`dict.__setitem__`: an existing key keeps its position and gets the new
value, a fresh key is appended.  Agents are records carrying a `name` and
a `run` function; fallible Python code (a raised exception) is embedded
as `Except AgentError`.
-/

namespace OpenDisaster

/-- Values stored in the shared context: strings (the prompt, the disaster
type), Python `None` (the location when nothing was found), and the nested
location dict `{"name": ..., "lat": ..., "lng": ...}` built by the
geocoding agent.  Floats are embedded as rationals. -/
inductive Value where
  | str : String → Value
  | null : Value
  | loc : String → Rat → Rat → Value
deriving DecidableEq, Repr

/-- The shared context / an agent's partial result: a dict from string
keys to values, embedded as an association list with unique keys kept in
insertion order. -/
abbrev Ctx := List (String × Value)

/-- `dict.__setitem__`: an existing key keeps its position and receives
the new value; a fresh key is appended at the end. -/
def setKey : Ctx → String → Value → Ctx
  | [], k, v => [(k, v)]
  | (k1, v1) :: rest, k, v =>
    if k1 = k then (k, v) :: rest else (k1, v1) :: setKey rest k v

/-- `dict.update`: fold `setKey` over the entries of the partial result,
in order. -/
def update (c : Ctx) (r : Ctx) : Ctx :=
  r.foldl (fun acc kv => setKey acc kv.1 kv.2) c

/-- `dict.get k`: the value at the first (hence, for dicts, only)
occurrence of the key. -/
def lookup : Ctx → String → Option Value
  | [], _ => none
  | (k1, v1) :: rest, k => if k1 = k then some v1 else lookup rest k

/-- `k in dict`. -/
def hasKey (c : Ctx) (k : String) : Bool :=
  (lookup c k).isSome

/-- The keys of a Python dict are pairwise distinct; partial results built
from dict literals satisfy this. -/
def nodupKeys (c : Ctx) : Prop :=
  (c.map Prod.fst).Nodup

instance (c : Ctx) : Decidable (nodupKeys c) := by
  unfold nodupKeys; infer_instance

/-- Errors an agent's `run` may raise: the network failure of the
geocoding lookup (spec: `ExternalDependencyError`), and Python's
`TypeError` raised by `re.search` when the value looked up under
`"prompt"` is not a string. -/
inductive AgentError where
  | externalDependency : String → AgentError
  | typeError : String → AgentError
deriving DecidableEq, Repr

/-- backend/agents/base_agent.py `BaseAgent`: a stable name and a `run`
taking the shared context to a partial result; a raised exception is the
`Except.error` branch. -/
structure Agent where
  name : String
  run : Ctx → Except AgentError Ctx

/-- Placeholder agent used only as the default of `List.getD`; every
theorem indexing into an agent list bounds the index so the default is
never reached. -/
def noAgent : Agent :=
  ⟨"", fun _ => .ok []⟩

/-- The loop body of `Orchestrator.run` (backend/orchestrator.py): for
each agent in list order, `result = await agent.run(context)` then
`context.update(result)`; a raised error aborts the whole fold. -/
def runAgents : List Agent → Ctx → Except AgentError Ctx
  | [], context => .ok context
  | a :: rest, context =>
    match a.run context with
    | .error e => .error e
    | .ok result => runAgents rest (update context result)

/-- Same fold, also recording the context passed to each invoked agent,
in invocation order.  The second component coincides with `runAgents`
(`runAgentsTrace_snd`); the first component makes "agent i was invoked
with context c" a statement of the embedding. -/
def runAgentsTrace : List Agent → Ctx → List Ctx × Except AgentError Ctx
  | [], context => ([], .ok context)
  | a :: rest, context =>
    match a.run context with
    | .error e => ([context], .error e)
    | .ok result =>
      let p := runAgentsTrace rest (update context result)
      (context :: p.1, p.2)

/-- backend/orchestrator.py `Orchestrator`: holds the ordered agent
list. -/
structure Orchestrator where
  agents : List Agent

/-- `Orchestrator.run`: start from `{"prompt": prompt}` and fold the
agents over it. -/
def Orchestrator.run (o : Orchestrator) (prompt : String) : Except AgentError Ctx :=
  runAgents o.agents [("prompt", Value.str prompt)]

/-- The initial shared context `{"prompt": prompt}`. -/
def initCtx (prompt : String) : Ctx :=
  [("prompt", Value.str prompt)]

/-- The sequence of contexts passed to the successively invoked agents
during one orchestrator run. -/
def ctxTrace (agents : List Agent) (prompt : String) : List Ctx :=
  (runAgentsTrace agents (initCtx prompt)).1

/-! ### Disaster type agent (backend/agents/disaster_type_agent.py) -/

/-- The keyword list `DISASTER_TYPES`. -/
def DISASTER_TYPES : List String :=
  ["avalanche", "earthquake", "flood", "wildfire", "hurricane",
   "tornado", "tsunami", "landslide", "volcanic eruption"]

/-- Case-insensitive literal match of a pattern at the head of the text,
the way `re.IGNORECASE` compares ASCII characters. -/
def matchesCI : List Char → List Char → Bool
  | [], _ => true
  | _ :: _, [] => false
  | p :: ps, c :: cs => (p.toLower == c.toLower) && matchesCI ps cs

/-- First alternative (in pattern order) for which `f` yields a value:
the backtracking order of a regex alternation. -/
def firstSome {α β : Type} (f : α → Option β) : List α → Option β
  | [] => none
  | a :: t =>
    match f a with
    | some b => some b
    | none => firstSome f t

/-- The alternatives of `_PATTERN`, one per disaster type. -/
def disasterAlts : List (List Char) :=
  DISASTER_TYPES.map String.toList

/-- Match of `_PATTERN` anchored at the current position: the first
alternative that matches here, returning the matched slice of the text
(`match.group(0)`). -/
def firstAltAt (cs : List Char) : Option (List Char) :=
  firstSome (fun d => if matchesCI d cs then some (cs.take d.length) else none)
    disasterAlts

/-- `_PATTERN.search`: try every start position left to right and return
the leftmost match. -/
def searchDisaster : List Char → Option (List Char)
  | [] => firstAltAt []
  | c :: t =>
    match firstAltAt (c :: t) with
    | some m => some m
    | none => searchDisaster t

/-- `context.get("prompt", "")` followed by handing the value to
`re.search`: a missing key yields `""`, a non-string value makes
`re.search` raise `TypeError`. -/
def getPrompt (context : Ctx) : Except AgentError String :=
  match lookup context "prompt" with
  | none => .ok ""
  | some (Value.str s) => .ok s
  | some _ => .error (AgentError.typeError "expected string or bytes-like object")

/-- The value the disaster type agent computes from the prompt:
`match.group(0).lower() if match else "unknown"`. -/
def disasterTypeValue (p : String) : String :=
  match searchDisaster p.toList with
  | some m => String.mk (m.map Char.toLower)
  | none => "unknown"

/-- `DisasterTypeAgent.run`: search the prompt with `_PATTERN` and return
`{"disaster_type": match.group(0).lower()}`, or `"unknown"` when there is
no match. -/
def disasterTypeRun (context : Ctx) : Except AgentError Ctx :=
  match getPrompt context with
  | .error e => .error e
  | .ok p => .ok [("disaster_type", Value.str (disasterTypeValue p))]

/-- The `DisasterTypeAgent` instance. -/
def disasterTypeAgent : Agent :=
  ⟨"disaster_type", disasterTypeRun⟩

/-! ### Geocoding agent (backend/agents/geocoding_agent.py) -/

/-- Python `\s` on ASCII text: space, tab, newline, carriage return,
vertical tab, form feed. -/
def isSpaceCh (c : Char) : Bool :=
  (c == ' ') || (c == '\t') || (c == '\n') || (c == '\r') ||
  (c == '\x0b') || (c == '\x0c')

/-- The alternatives of the leading group `(?:hitting|at|in|near|around|over)`
of the location pattern, in pattern order. -/
def locKeywords : List (List Char) :=
  ["hitting", "at", "in", "near", "around", "over"].map String.toList

/-- The alternatives of the trailing group `(?:after|during|with|from)`. -/
def endKeywords : List (List Char) :=
  ["after", "during", "with", "from"].map String.toList

/-- Length of the leading whitespace run. -/
def wsRun (cs : List Char) : Nat :=
  (cs.takeWhile isSpaceCh).length

/-- Does any of the alternatives match at the head of the text? -/
def startsWithAnyCI (alts : List (List Char)) (cs : List Char) : Bool :=
  alts.any (fun kw => matchesCI kw cs)

/-- Can the tail `(?:\s+(?:after|during|with|from)|[.!?]|$)` of the
location pattern match at this position?  `\s+` is greedy but its
follower starts with a letter, so only the full whitespace run can
precede an end keyword; `$` in Python also matches just before a single
trailing newline. -/
def tailOk (cs : List Char) : Bool :=
  (decide (1 ≤ wsRun cs) && startsWithAnyCI endKeywords (cs.drop (wsRun cs)))
  || (match cs with
      | c :: _ => (c == '.') || (c == '!') || (c == '?')
      | [] => false)
  || cs.isEmpty
  || cs == ['\n']

/-- The lazy group `(.+?)`: the shortest non-empty prefix of newline-free
characters after which the tail of the pattern matches. -/
def findGroup : List Char → Option (List Char)
  | [] => none
  | c :: t =>
    if c == '\n' then none
    else if tailOk t then some [c]
    else (findGroup t).map (fun g => c :: g)

/-- Backtracking of the greedy `\s+` between the keyword and the group:
try the maximal whitespace run first, shrinking down to one character. -/
def tryWs : Nat → List Char → Option (List Char)
  | 0, _ => none
  | n + 1, cs =>
    match findGroup (cs.drop (n + 1)) with
    | some g => some g
    | none => tryWs n cs

/-- Continue the location pattern right after a matched keyword: at least
one whitespace character, then the lazy group. -/
def afterKeyword (cs : List Char) : Option (List Char) :=
  if wsRun cs = 0 then none else tryWs (wsRun cs) cs

/-- Match the whole location pattern anchored at the current position:
the keyword alternatives are tried in pattern order (at most one can
match, their literals being pairwise incompatible). -/
def tryKeywordAt (cs : List Char) : Option (List Char) :=
  firstSome
    (fun kw => if matchesCI kw cs then afterKeyword (cs.drop kw.length) else none)
    locKeywords

/-- `pattern.search` for the location pattern: leftmost start position
that admits a match, returning `match.group(1)`. -/
def searchLoc : List Char → Option (List Char)
  | [] => tryKeywordAt []
  | c :: t =>
    match tryKeywordAt (c :: t) with
    | some g => some g
    | none => searchLoc t

/-- Python `str.strip()` (ASCII whitespace). -/
def pyStrip (cs : List Char) : List Char :=
  ((cs.dropWhile isSpaceCh).reverse.dropWhile isSpaceCh).reverse

/-- Python `str.rstrip(",")`. -/
def rstripComma (cs : List Char) : List Char :=
  (cs.reverse.dropWhile (fun c => c == ',')).reverse

/-- `_extract_location_query`: search the single location pattern and
post-process the captured group with `.strip().rstrip(",")`. -/
def extractLocationQuery (p : String) : Option String :=
  (searchLoc p.toList).map (fun g => String.mk (rstripComma (pyStrip g)))

/-- The best-match location produced by the external geocoding service:
`name`, `lat`, `lng` of the first feature. -/
structure GeoResult where
  name : String
  lat : Rat
  lng : Rat
deriving DecidableEq, Repr

/-- The tail of `GeocodingAgent.run` once the query has been extracted:
a falsy query (`None` or `""`) short-circuits to `{"location": None}`
without any network request; otherwise the lookup either raises, finds
no feature (`{"location": None}`), or yields the location dict. -/
def locationFromQuery (geocode : String → Except AgentError (Option GeoResult)) :
    Option String → Except AgentError Ctx
  | none => .ok [("location", Value.null)]
  | some q =>
    if q = "" then .ok [("location", Value.null)]
    else
      match geocode q with
      | .error e => .error e
      | .ok none => .ok [("location", Value.null)]
      | .ok (some r) => .ok [("location", Value.loc r.name r.lat r.lng)]

/-- `GeocodingAgent.run`, parameterised by the external geocoding lookup
(the Mapbox HTTP call together with its response parsing, the agent's
only side effect): extract the query from the prompt and continue with
`locationFromQuery`. -/
def geocodingRun (geocode : String → Except AgentError (Option GeoResult))
    (context : Ctx) : Except AgentError Ctx :=
  match getPrompt context with
  | .error e => .error e
  | .ok p => locationFromQuery geocode (extractLocationQuery p)

/-- A `GeocodingAgent` instance over a given external lookup. -/
def geocodingAgent (geocode : String → Except AgentError (Option GeoResult)) : Agent :=
  ⟨"geocoding", geocodingRun geocode⟩

/-! ### Test stubs used by the spec's scenarios -/

/-- An agent that always succeeds with a fixed partial result. -/
def constAgent (nm : String) (r : Ctx) : Agent :=
  ⟨nm, fun _ => .ok r⟩

/-- An agent that always raises. -/
def failingAgent (nm : String) (e : AgentError) : Agent :=
  ⟨nm, fun _ => .error e⟩

/-- The stub geocoder of the spec's end-to-end scenario: it returns
`{name: "Los Angeles, CA", lat: 34.05, lng: -118.24}` for the query
`"Los Angeles"` and no feature otherwise. -/
def stubGeocoder : String → Except AgentError (Option GeoResult) :=
  fun q =>
    if q = "Los Angeles" then .ok (some ⟨"Los Angeles, CA", 34.05, -118.24⟩)
    else .ok none

/-- A geocoder whose network call always fails; running it would be the
`ExternalDependencyError` branch. -/
def failGeocoder : String → Except AgentError (Option GeoResult) :=
  fun _ => .error (AgentError.externalDependency "geocoding request failed")

/-- The string the agents actually regex-search: `""` when the key is
absent, the value when it is a string, undefined (`none`, the `TypeError`
case) otherwise. -/
def promptStr (context : Ctx) : Option String :=
  match lookup context "prompt" with
  | none => some ""
  | some (Value.str s) => some s
  | some _ => none

theorem lookup_setKey (c : Ctx) (k1 k : String) (v : Value) :
    lookup (setKey c k1 v) k = if k1 = k then some v else lookup c k := by
  induction c with
  | nil => simp [setKey, lookup]
  | cons hd tl ih =>
    obtain ⟨k2, v2⟩ := hd
    by_cases h21 : k2 = k1
    · subst h21
      by_cases h2k : k2 = k <;> simp [setKey, lookup, h2k]
    · by_cases h2k : k2 = k
      · subst h2k
        have h1k : ¬ k1 = k2 := fun h => h21 h.symm
        simp [setKey, lookup, h21, h1k]
      · simp [setKey, lookup, h21, h2k, ih]

theorem hasKey_setKey (c : Ctx) (k1 k : String) (v : Value) :
    hasKey (setKey c k1 v) k = true ↔ (k1 = k ∨ hasKey c k = true) := by
  unfold hasKey
  rw [lookup_setKey]
  by_cases h : k1 = k <;> simp [h]

theorem update_nil (c : Ctx) : update c [] = c := rfl

theorem update_cons (c : Ctx) (k : String) (v : Value) (r : Ctx) :
    update c ((k, v) :: r) = update (setKey c k v) r := rfl

theorem hasKey_update (c r : Ctx) (k : String) :
    hasKey (update c r) k = true ↔ (hasKey c k = true ∨ hasKey r k = true) := by
  induction r generalizing c with
  | nil => simp [update_nil, hasKey, lookup]
  | cons hd tl ih =>
    obtain ⟨k1, v1⟩ := hd
    rw [update_cons, ih, hasKey_setKey]
    constructor
    · rintro ((h | h) | h)
      · right; simp [hasKey, lookup, h]
      · exact Or.inl h
      · right
        simp only [hasKey, lookup] at h ⊢
        by_cases h1k : k1 = k
        · simp [h1k]
        · simp [h1k, h]
    · rintro (h | h)
      · exact Or.inl (Or.inr h)
      · by_cases h1k : k1 = k
        · exact Or.inl (Or.inl h1k)
        · right
          simp only [hasKey, lookup, h1k, if_false] at h
          exact h

theorem lookup_eq_none_of_not_mem (r : Ctx) (k : String)
    (h : k ∉ r.map Prod.fst) : lookup r k = none := by
  induction r with
  | nil => rfl
  | cons hd tl ih =>
    obtain ⟨k1, v1⟩ := hd
    simp only [List.map_cons, List.mem_cons, not_or] at h
    have h1k : ¬ k1 = k := fun he => h.1 he.symm
    simp [lookup, h1k, ih h.2]

theorem lookup_update_of_none (c r : Ctx) (k : String)
    (h : lookup r k = none) : lookup (update c r) k = lookup c k := by
  induction r generalizing c with
  | nil => rw [update_nil]
  | cons hd tl ih =>
    obtain ⟨k1, v1⟩ := hd
    simp only [lookup] at h
    by_cases h1k : k1 = k
    · simp [h1k] at h
    · simp only [h1k, if_false] at h
      rw [update_cons, ih _ h, lookup_setKey, if_neg h1k]

theorem lookup_update_of_some (c r : Ctx) (k : String) (v : Value)
    (hnd : nodupKeys r) (h : lookup r k = some v) :
    lookup (update c r) k = some v := by
  induction r generalizing c with
  | nil => simp [lookup] at h
  | cons hd tl ih =>
    obtain ⟨k1, v1⟩ := hd
    unfold nodupKeys at hnd
    simp only [List.map_cons, List.nodup_cons] at hnd
    simp only [lookup] at h
    by_cases h1k : k1 = k
    · rw [if_pos h1k] at h
      have hmem : k ∉ tl.map Prod.fst := h1k ▸ hnd.1
      have htl : lookup tl k = none := lookup_eq_none_of_not_mem tl k hmem
      rw [update_cons, lookup_update_of_none _ _ _ htl, lookup_setKey, if_pos h1k, h]
    · rw [if_neg h1k] at h
      rw [update_cons]
      exact ih (setKey c k1 v1) hnd.2 h

theorem runAgentsTrace_snd (ags : List Agent) (c : Ctx) :
    (runAgentsTrace ags c).2 = runAgents ags c := by
  induction ags generalizing c with
  | nil => rfl
  | cons a rest ih =>
    unfold runAgentsTrace runAgents
    cases a.run c with
    | error e => rfl
    | ok r => exact ih (update c r)

theorem runAgentsTrace_length_le (ags : List Agent) (c : Ctx) :
    (runAgentsTrace ags c).1.length ≤ ags.length := by
  induction ags generalizing c with
  | nil => exact Nat.le_refl 0
  | cons a rest ih =>
    unfold runAgentsTrace
    cases a.run c with
    | error e => simp
    | ok r => simpa using Nat.succ_le_succ (ih (update c r))

theorem runAgentsTrace_length_of_ok (ags : List Agent) (c c' : Ctx)
    (h : (runAgentsTrace ags c).2 = .ok c') :
    (runAgentsTrace ags c).1.length = ags.length := by
  induction ags generalizing c with
  | nil => rfl
  | cons a rest ih =>
    unfold runAgentsTrace at h ⊢
    cases hr : a.run c with
    | error e => rw [hr] at h; exact absurd h (by simp)
    | ok r =>
      rw [hr] at h
      simpa using ih (update c r) h

theorem runAgentsTrace_getD_zero (ags : List Agent) (c : Ctx)
    (h : 0 < (runAgentsTrace ags c).1.length) :
    (runAgentsTrace ags c).1.getD 0 [] = c := by
  cases ags with
  | nil => exact absurd h (by simp [runAgentsTrace])
  | cons a rest =>
    unfold runAgentsTrace
    cases a.run c with
    | error e => rfl
    | ok r => rfl

theorem runAgentsTrace_step (ags : List Agent) (c : Ctx) (i : Nat)
    (h : i + 1 < (runAgentsTrace ags c).1.length) :
    ∃ r, (ags.getD i noAgent).run ((runAgentsTrace ags c).1.getD i []) = .ok r ∧
      (runAgentsTrace ags c).1.getD (i + 1) [] =
        update ((runAgentsTrace ags c).1.getD i []) r := by
  induction ags generalizing c i with
  | nil => exact absurd h (by simp [runAgentsTrace])
  | cons a rest ih =>
    unfold runAgentsTrace at h ⊢
    cases hr : a.run c with
    | error e =>
      rw [hr] at h
      exact absurd h (by simp)
    | ok r =>
      rw [hr] at h
      simp only [List.length_cons, Nat.add_lt_add_iff_right] at h
      cases i with
      | zero =>
        refine ⟨r, hr, ?_⟩
        simp only [List.getD_cons_zero, List.getD_cons_succ]
        exact (runAgentsTrace_getD_zero rest (update c r) h).symm ▸ rfl
      | succ j =>
        have hj : j + 1 < (runAgentsTrace rest (update c r)).1.length := h
        obtain ⟨r2, hrun, hctx⟩ := ih (update c r) j hj
        exact ⟨r2, by simpa using hrun, by simpa using hctx⟩

theorem runAgents_hasKey_of_ok (ags : List Agent) (c c' : Ctx) (k : String)
    (h : runAgents ags c = .ok c') (hk : hasKey c k = true) :
    hasKey c' k = true := by
  induction ags generalizing c with
  | nil =>
    unfold runAgents at h
    cases h; exact hk
  | cons a rest ih =>
    unfold runAgents at h
    cases hr : a.run c with
    | error e => rw [hr] at h; exact absurd h (by simp)
    | ok r =>
      rw [hr] at h
      exact ih (update c r) h ((hasKey_update c r k).mpr (Or.inl hk))

theorem runAgentsTrace_getD_final (ags : List Agent) (c c' : Ctx) (i : Nat)
    (k : String) (h : (runAgentsTrace ags c).2 = .ok c')
    (hi : i < (runAgentsTrace ags c).1.length)
    (hk : hasKey ((runAgentsTrace ags c).1.getD i []) k = true) :
    hasKey c' k = true := by
  induction ags generalizing c i with
  | nil => exact absurd hi (by simp [runAgentsTrace])
  | cons a rest ih =>
    unfold runAgentsTrace at h hi hk
    cases hr : a.run c with
    | error e =>
      rw [hr] at h
      exact absurd h (by simp)
    | ok r =>
      rw [hr] at h hi hk
      cases i with
      | zero =>
        simp only [List.getD_cons_zero] at hk
        have h2 : runAgents rest (update c r) = .ok c' := by
          rw [← runAgentsTrace_snd]; exact h
        exact runAgents_hasKey_of_ok rest (update c r) c' k h2
          ((hasKey_update c r k).mpr (Or.inl hk))
      | succ j =>
        simp only [List.getD_cons_succ] at hk
        simp only [List.length_cons, Nat.add_lt_add_iff_right] at hi
        exact ih (update c r) j h hi hk

theorem runAgents_cons_ok (a : Agent) (rest : List Agent) (c r : Ctx)
    (h : a.run c = .ok r) :
    runAgents (a :: rest) c = runAgents rest (update c r) := by
  conv_lhs => unfold runAgents
  rw [h]

theorem runAgents_cons_error (a : Agent) (rest : List Agent) (c : Ctx)
    (e : AgentError) (h : a.run c = .error e) :
    runAgents (a :: rest) c = .error e := by
  conv_lhs => unfold runAgents
  rw [h]

theorem runAgentsTrace_cons_ok (a : Agent) (rest : List Agent) (c r : Ctx)
    (h : a.run c = .ok r) :
    runAgentsTrace (a :: rest) c =
      (c :: (runAgentsTrace rest (update c r)).1,
       (runAgentsTrace rest (update c r)).2) := by
  conv_lhs => unfold runAgentsTrace
  rw [h]

theorem runAgentsTrace_cons_error (a : Agent) (rest : List Agent) (c : Ctx)
    (e : AgentError) (h : a.run c = .error e) :
    runAgentsTrace (a :: rest) c = ([c], .error e) := by
  conv_lhs => unfold runAgentsTrace
  rw [h]

theorem runAgents_append_of_ok (l1 l2 : List Agent) (c c1 : Ctx)
    (h : runAgents l1 c = .ok c1) :
    runAgents (l1 ++ l2) c = runAgents l2 c1 := by
  induction l1 generalizing c with
  | nil =>
    unfold runAgents at h
    cases h
    rfl
  | cons a rest ih =>
    rw [List.cons_append]
    cases hr : a.run c with
    | error e =>
      rw [runAgents_cons_error a rest c e hr] at h
      exact absurd h (by simp)
    | ok r =>
      rw [runAgents_cons_ok a rest c r hr] at h
      rw [runAgents_cons_ok a (rest ++ l2) c r hr]
      exact ih (update c r) h

theorem runAgentsTrace_fst_append_of_ok (l1 l2 : List Agent) (c c1 : Ctx)
    (h : (runAgentsTrace l1 c).2 = .ok c1) :
    (runAgentsTrace (l1 ++ l2) c).1 =
      (runAgentsTrace l1 c).1 ++ (runAgentsTrace l2 c1).1 := by
  induction l1 generalizing c with
  | nil =>
    unfold runAgentsTrace at h
    cases h
    simp [runAgentsTrace]
  | cons a rest ih =>
    rw [List.cons_append]
    cases hr : a.run c with
    | error e =>
      rw [runAgentsTrace_cons_error a rest c e hr] at h
      exact absurd h (by simp)
    | ok r =>
      rw [runAgentsTrace_cons_ok a rest c r hr] at h
      rw [runAgentsTrace_cons_ok a (rest ++ l2) c r hr,
        runAgentsTrace_cons_ok a rest c r hr]
      exact congrArg (fun l => c :: l) (ih (update c r) h)

theorem trace_hasKey_iff (ags : List Agent) (p : String) (i : Nat) (k : String)
    (hi : i < (ctxTrace ags p).length) :
    hasKey ((ctxTrace ags p).getD i []) k = true ↔
      (k = "prompt" ∨ ∃ j r, j < i ∧
        (ags.getD j noAgent).run ((ctxTrace ags p).getD j []) = .ok r ∧
        hasKey r k = true) := by
  unfold ctxTrace at *
  induction i with
  | zero =>
    rw [runAgentsTrace_getD_zero ags (initCtx p) hi]
    constructor
    · intro h
      left
      by_cases hk : "prompt" = k
      · exact hk.symm
      · simp [hasKey, lookup, initCtx, hk] at h
    · rintro (h | ⟨j, r, hj, _⟩)
      · rw [h]
        simp [hasKey, lookup, initCtx]
      · exact absurd hj (Nat.not_lt_zero j)
  | succ i ih =>
    have hi' : i < (runAgentsTrace ags (initCtx p)).1.length := Nat.lt_of_succ_lt hi
    obtain ⟨r, hrun, hctx⟩ := runAgentsTrace_step ags (initCtx p) i hi
    rw [hctx, hasKey_update]
    constructor
    · rintro (h | h)
      · rcases (ih hi').mp h with h1 | ⟨j, r2, hj, hrun2, hk2⟩
        · exact Or.inl h1
        · exact Or.inr ⟨j, r2, Nat.lt_succ_of_lt hj, hrun2, hk2⟩
      · exact Or.inr ⟨i, r, Nat.lt_succ_self i, hrun, h⟩
    · rintro (h | ⟨j, r2, hj, hrun2, hk2⟩)
      · exact Or.inl ((ih hi').mpr (Or.inl h))
      · rcases Nat.lt_succ_iff_lt_or_eq.mp hj with hj2 | hj2
        · exact Or.inl ((ih hi').mpr (Or.inr ⟨j, r2, hj2, hrun2, hk2⟩))
        · rw [hj2] at hrun2
          have he : Except.ok (ε := AgentError) r = Except.ok r2 := hrun.symm.trans hrun2
          have hr2 : r = r2 := by injection he
          exact Or.inr (by rw [hr2]; exact hk2)

theorem trace_hasKey_mono (ags : List Agent) (p : String) (i j : Nat) (k : String)
    (hij : i ≤ j) (hj : j < (ctxTrace ags p).length)
    (hk : hasKey ((ctxTrace ags p).getD i []) k = true) :
    hasKey ((ctxTrace ags p).getD j []) k = true := by
  unfold ctxTrace at *
  induction j with
  | zero =>
    have h0 : i = 0 := Nat.le_zero.mp hij
    rw [h0] at hk
    exact hk
  | succ j ih =>
    by_cases hej : i = j + 1
    · rw [hej] at hk
      exact hk
    · have hij2 : i ≤ j := Nat.lt_succ_iff.mp (Nat.lt_of_le_of_ne hij hej)
      obtain ⟨r, _, hctx⟩ := runAgentsTrace_step ags (initCtx p) j hj
      rw [hctx]
      exact (hasKey_update _ r k).mpr
        (Or.inl (ih hij2 (Nat.lt_of_succ_lt hj)))

theorem getPrompt_eq_of_promptStr (context : Ctx) (s : String)
    (h : promptStr context = some s) : getPrompt context = .ok s := by
  unfold promptStr at h
  unfold getPrompt
  cases hl : lookup context "prompt" with
  | none =>
    rw [hl] at h
    simp only [Option.some.injEq] at h
    exact congrArg Except.ok h
  | some v =>
    rw [hl] at h
    cases v with
    | str s2 =>
      simp only [Option.some.injEq] at h
      exact congrArg Except.ok h
    | null => simp at h
    | loc n la ln => simp at h

theorem disasterTypeRun_of_prompt (context : Ctx) (p : String)
    (h : getPrompt context = .ok p) :
    disasterTypeRun context = .ok [("disaster_type", Value.str (disasterTypeValue p))] := by
  unfold disasterTypeRun
  rw [h]

theorem geocodingRun_of_prompt (g : String → Except AgentError (Option GeoResult))
    (context : Ctx) (p : String) (h : getPrompt context = .ok p) :
    geocodingRun g context = locationFromQuery g (extractLocationQuery p) := by
  unfold geocodingRun
  rw [h]

theorem hasKey_singleton_ne (k1 k : String) (v : Value) (h : ¬ k1 = k) :
    hasKey [(k1, v)] k = false := by
  simp [hasKey, lookup, h]

theorem disasterTypeRun_result_keys (context r : Ctx)
    (h : disasterTypeRun context = .ok r) : hasKey r "prompt" = false := by
  unfold disasterTypeRun at h
  cases hg : getPrompt context with
  | error e => rw [hg] at h; exact absurd h (by simp)
  | ok p =>
    rw [hg] at h
    simp only [Except.ok.injEq] at h
    rw [← h]
    exact hasKey_singleton_ne _ _ _ (by decide)

theorem locationFromQuery_result_keys (g : String → Except AgentError (Option GeoResult))
    (q : Option String) (r : Ctx) (h : locationFromQuery g q = .ok r) :
    hasKey r "prompt" = false := by
  cases q with
  | none =>
    unfold locationFromQuery at h
    simp only [Except.ok.injEq] at h
    rw [← h]
    exact hasKey_singleton_ne _ _ _ (by decide)
  | some s =>
    simp only [locationFromQuery] at h
    by_cases hs : s = ""
    · rw [if_pos hs] at h
      simp only [Except.ok.injEq] at h
      rw [← h]
      exact hasKey_singleton_ne _ _ _ (by decide)
    · rw [if_neg hs] at h
      cases hgq : g s with
      | error e => rw [hgq] at h; exact absurd h (by simp)
      | ok o =>
        rw [hgq] at h
        cases o with
        | none =>
          simp only [Except.ok.injEq] at h
          rw [← h]
          exact hasKey_singleton_ne _ _ _ (by decide)
        | some gr =>
          simp only [Except.ok.injEq] at h
          rw [← h]
          exact hasKey_singleton_ne _ _ _ (by decide)

theorem geocodingRun_result_keys (g : String → Except AgentError (Option GeoResult))
    (context r : Ctx) (h : geocodingRun g context = .ok r) :
    hasKey r "prompt" = false := by
  unfold geocodingRun at h
  cases hg : getPrompt context with
  | error e => rw [hg] at h; exact absurd h (by simp)
  | ok p =>
    rw [hg] at h
    exact locationFromQuery_result_keys g (extractLocationQuery p) r h

theorem runAgents_lookup_prompt (ags : List Agent) (c0 c : Ctx)
    (hprop : ∀ a ∈ ags, ∀ ctx r, a.run ctx = .ok r → hasKey r "prompt" = false)
    (h : runAgents ags c0 = .ok c) :
    lookup c "prompt" = lookup c0 "prompt" := by
  induction ags generalizing c0 with
  | nil =>
    unfold runAgents at h
    cases h
    rfl
  | cons a rest ih =>
    cases hr : a.run c0 with
    | error e =>
      rw [runAgents_cons_error a rest c0 e hr] at h
      exact absurd h (by simp)
    | ok r =>
      rw [runAgents_cons_ok a rest c0 r hr] at h
      have hnp : hasKey r "prompt" = false :=
        hprop a (List.mem_cons_self a rest) c0 r hr
      have hnone : lookup r "prompt" = none := by
        cases hl : lookup r "prompt" with
        | none => rfl
        | some v =>
          unfold hasKey at hnp
          rw [hl] at hnp
          simp at hnp
      rw [ih (update c0 r) (fun a2 ha2 => hprop a2 (List.mem_cons_of_mem a ha2)) h,
        lookup_update_of_none c0 r "prompt" hnone]

theorem firstSome_eq_some {α β : Type} (f : α → Option β) (l : List α) (b : β)
    (h : firstSome f l = some b) : ∃ a ∈ l, f a = some b := by
  induction l with
  | nil => simp [firstSome] at h
  | cons x t ih =>
    unfold firstSome at h
    cases hx : f x with
    | some b2 =>
      rw [hx] at h
      injection h with hb
      exact ⟨x, List.mem_cons_self x t, by rw [hx, hb]⟩
    | none =>
      rw [hx] at h
      obtain ⟨a, ha, hfa⟩ := ih h
      exact ⟨a, List.mem_cons_of_mem x ha, hfa⟩

theorem matchesCI_take_toLower (d cs : List Char) (h : matchesCI d cs = true) :
    (cs.take d.length).map Char.toLower = d.map Char.toLower := by
  induction d generalizing cs with
  | nil => rfl
  | cons p ps ih =>
    cases cs with
    | nil => simp [matchesCI] at h
    | cons c t =>
      unfold matchesCI at h
      rw [Bool.and_eq_true] at h
      have h1 : p.toLower = c.toLower := eq_of_beq h.1
      show c.toLower :: (t.take ps.length).map Char.toLower =
        p.toLower :: ps.map Char.toLower
      rw [ih t h.2, h1]

theorem firstAltAt_mem (cs m : List Char) (h : firstAltAt cs = some m) :
    ∃ d ∈ disasterAlts, m.map Char.toLower = d.map Char.toLower := by
  obtain ⟨d, hd, hfd⟩ := firstSome_eq_some _ _ _ h
  cases hmb : matchesCI d cs with
  | true =>
    rw [hmb] at hfd
    simp only [if_true] at hfd
    injection hfd with hm
    exact ⟨d, hd, by rw [← hm]; exact matchesCI_take_toLower d cs hmb⟩
  | false =>
    rw [hmb] at hfd
    simp at hfd

theorem searchDisaster_mem (cs m : List Char) (h : searchDisaster cs = some m) :
    ∃ d ∈ disasterAlts, m.map Char.toLower = d.map Char.toLower := by
  induction cs with
  | nil => exact firstAltAt_mem [] m h
  | cons c t ih =>
    unfold searchDisaster at h
    cases hf : firstAltAt (c :: t) with
    | some m2 =>
      rw [hf] at h
      injection h with h2
      exact h2 ▸ firstAltAt_mem (c :: t) m2 hf
    | none =>
      rw [hf] at h
      exact ih h

theorem disasterTypeValue_mem (p : String) :
    disasterTypeValue p ∈ DISASTER_TYPES ∨ disasterTypeValue p = "unknown" := by
  unfold disasterTypeValue
  cases hsd : searchDisaster p.toList with
  | none => exact Or.inr rfl
  | some m =>
    left
    obtain ⟨d, hd, hmd⟩ := searchDisaster_mem _ _ hsd
    obtain ⟨t, ht, htd⟩ := List.mem_map.mp hd
    have hlow : ∀ t2 ∈ DISASTER_TYPES,
        (String.toList t2).map Char.toLower = String.toList t2 := by decide
    have hmk : String.mk (m.map Char.toLower) = t := by
      rw [hmd, ← htd, hlow t ht]
      rfl
    show String.mk (m.map Char.toLower) ∈ DISASTER_TYPES
    rw [hmk]
    exact ht

/-! ### The claims -/

/-- Claim C1: the orchestrator invokes the agents in strict left-to-right
list order over one shared context.  (1) The context passed to the agent
at index `i` has exactly the key `"prompt"` together with the keys merged
from the results of agents `0..i-1`.  (2) Context keys grow monotonically
along the run.  (3) No key present in any intermediate context is ever
deleted: each such key is still present in the returned context. -/
theorem C1_strict_order_exact_keys_monotone :
    (∀ (ags : List Agent) (p : String) (i : Nat) (k : String),
      i < (ctxTrace ags p).length →
      (hasKey ((ctxTrace ags p).getD i []) k = true ↔
        (k = "prompt" ∨ ∃ j r, j < i ∧
          (ags.getD j noAgent).run ((ctxTrace ags p).getD j []) = .ok r ∧
          hasKey r k = true))) ∧
    (∀ (ags : List Agent) (p : String) (i j : Nat) (k : String),
      i ≤ j → j < (ctxTrace ags p).length →
      hasKey ((ctxTrace ags p).getD i []) k = true →
      hasKey ((ctxTrace ags p).getD j []) k = true) ∧
    (∀ (ags : List Agent) (p : String) (c : Ctx) (i : Nat) (k : String),
      Orchestrator.run ⟨ags⟩ p = .ok c →
      i < (ctxTrace ags p).length →
      hasKey ((ctxTrace ags p).getD i []) k = true →
      hasKey c k = true) :=
  ⟨fun ags p i k hi => trace_hasKey_iff ags p i k hi,
   fun ags p i j k hij hj hk => trace_hasKey_mono ags p i j k hij hj hk,
   fun ags p c i k hok hi hk =>
     runAgentsTrace_getD_final ags (initCtx p) c i k
       (by rw [runAgentsTrace_snd]; exact hok) hi hk⟩

/-- Concrete instantiation of `C1_strict_order_exact_keys_monotone` on a
two-agent run: the second agent sees the key written by the first, keys
persist from the first context to the second, and a key of an
intermediate context is still in the final context. -/
theorem C1_witness :
    hasKey ((ctxTrace [constAgent "a" [("x", Value.str "1")],
        constAgent "b" [("y", Value.str "2")]] "hi").getD 1 []) "x" = true ∧
    hasKey ((ctxTrace [constAgent "a" [("x", Value.str "1")],
        constAgent "b" [("y", Value.str "2")]] "hi").getD 1 []) "prompt" = true ∧
    hasKey [("prompt", Value.str "hi"), ("x", Value.str "1"), ("y", Value.str "2")]
      "x" = true := by
  have h := C1_strict_order_exact_keys_monotone
  refine ⟨?_, ?_, ?_⟩
  · exact (h.1 [constAgent "a" [("x", Value.str "1")],
      constAgent "b" [("y", Value.str "2")]] "hi" 1 "x" (by decide)).mpr
      (Or.inr ⟨0, [("x", Value.str "1")], by decide, rfl, by decide⟩)
  · exact h.2.1 [constAgent "a" [("x", Value.str "1")],
      constAgent "b" [("y", Value.str "2")]] "hi" 0 1 "prompt"
      (by decide) (by decide) (by decide)
  · exact h.2.2 [constAgent "a" [("x", Value.str "1")],
      constAgent "b" [("y", Value.str "2")]] "hi"
      [("prompt", Value.str "hi"), ("x", Value.str "1"), ("y", Value.str "2")]
      1 "x" rfl (by decide) (by decide)

/-- Claim C2: if an agent's run raises, the orchestrator propagates that
same error unmodified and no later agent is ever invoked: for the agent
list `pre ++ failing :: post`, when the agents of `pre` all succeed and
the failing agent raises `e` on the accumulated context, the run returns
`.error e` (no partial result) and exactly `pre.length + 1` agents were
invoked, so none of `post` ran. -/
theorem C2_error_propagation_stops_pipeline (pre post : List Agent) (f : Agent)
    (p : String) (c : Ctx) (e : AgentError)
    (hpre : runAgents pre (initCtx p) = .ok c)
    (hf : f.run c = .error e) :
    Orchestrator.run ⟨pre ++ f :: post⟩ p = .error e ∧
    (ctxTrace (pre ++ f :: post) p).length = pre.length + 1 := by
  have htr : (runAgentsTrace pre (initCtx p)).2 = .ok c := by
    rw [runAgentsTrace_snd]; exact hpre
  constructor
  · show runAgents (pre ++ f :: post) (initCtx p) = .error e
    rw [runAgents_append_of_ok pre (f :: post) (initCtx p) c hpre]
    exact runAgents_cons_error f post c e hf
  · show (runAgentsTrace (pre ++ f :: post) (initCtx p)).1.length = pre.length + 1
    rw [runAgentsTrace_fst_append_of_ok pre (f :: post) (initCtx p) c htr,
      List.length_append, runAgentsTrace_length_of_ok pre (initCtx p) c htr,
      runAgentsTrace_cons_error f post c e hf]
    rfl

/-- Concrete instantiation of `C2_error_propagation_stops_pipeline` on the
spec's scenario [A, FailingAgent, C]: the error comes out unmodified and
only two agents (A and the failing one) were invoked. -/
theorem C2_witness :
    Orchestrator.run ⟨[constAgent "a" [("a", Value.str "1")],
        failingAgent "f" (AgentError.externalDependency "boom"),
        constAgent "c" [("c", Value.str "3")]]⟩ "x" =
      .error (AgentError.externalDependency "boom") ∧
    (ctxTrace [constAgent "a" [("a", Value.str "1")],
        failingAgent "f" (AgentError.externalDependency "boom"),
        constAgent "c" [("c", Value.str "3")]] "x").length = 2 :=
  C2_error_propagation_stops_pipeline
    [constAgent "a" [("a", Value.str "1")]]
    [constAgent "c" [("c", Value.str "3")]]
    (failingAgent "f" (AgentError.externalDependency "boom"))
    "x" [("prompt", Value.str "x"), ("a", Value.str "1")]
    (AgentError.externalDependency "boom") rfl rfl

/-- Claim C3: merging is last-write-wins overwrite: in a two-agent run
where both results carry the key `k`, the final context maps `k` to the
value of the later agent's result. -/
theorem C3_last_write_wins (a1 a2 : Agent) (p k : String) (r1 r2 : Ctx)
    (h1 : a1.run (initCtx p) = .ok r1)
    (h2 : a2.run (update (initCtx p) r1) = .ok r2)
    (hnd : nodupKeys r2)
    (_hk1 : hasKey r1 k = true) (hk2 : hasKey r2 k = true) :
    Orchestrator.run ⟨[a1, a2]⟩ p = .ok (update (update (initCtx p) r1) r2) ∧
    lookup (update (update (initCtx p) r1) r2) k = lookup r2 k := by
  constructor
  · show runAgents [a1, a2] (initCtx p) = _
    rw [runAgents_cons_ok a1 [a2] (initCtx p) r1 h1,
      runAgents_cons_ok a2 [] (update (initCtx p) r1) r2 h2]
    rfl
  · have hk2s : (lookup r2 k).isSome = true := hk2
    obtain ⟨v, hv⟩ := Option.isSome_iff_exists.mp hk2s
    rw [hv]
    exact lookup_update_of_some _ r2 k v hnd hv

/-- Concrete instantiation of `C3_last_write_wins` on the spec's scenario:
agent 1 writes disaster_type = "x", agent 2 writes disaster_type = "y",
and the result maps disaster_type to "y". -/
theorem C3_witness :
    Orchestrator.run ⟨[constAgent "one" [("disaster_type", Value.str "x")],
        constAgent "two" [("disaster_type", Value.str "y")]]⟩ "p" =
      .ok (update (update (initCtx "p") [("disaster_type", Value.str "x")])
        [("disaster_type", Value.str "y")]) ∧
    lookup (update (update (initCtx "p") [("disaster_type", Value.str "x")])
        [("disaster_type", Value.str "y")]) "disaster_type" =
      lookup [("disaster_type", Value.str "y")] "disaster_type" ∧
    lookup (update (update (initCtx "p") [("disaster_type", Value.str "x")])
        [("disaster_type", Value.str "y")]) "disaster_type" =
      some (Value.str "y") := by
  have h := C3_last_write_wins
    (constAgent "one" [("disaster_type", Value.str "x")])
    (constAgent "two" [("disaster_type", Value.str "y")])
    "p" "disaster_type"
    [("disaster_type", Value.str "x")] [("disaster_type", Value.str "y")]
    rfl rfl (by decide) (by decide) (by decide)
  exact ⟨h.1, h.2, by decide⟩

/-- Claim C4: for every prompt and every agent list built from the default
agents (DisasterTypeAgent, GeocodingAgent over any geocoder), a
successful run returns a context mapping `"prompt"` to the original input
string, unchanged; indeed neither default agent's result ever contains
the key `"prompt"`. -/
theorem C4_prompt_preserved :
    (∀ (context r : Ctx), disasterTypeAgent.run context = .ok r →
      hasKey r "prompt" = false) ∧
    (∀ (g : String → Except AgentError (Option GeoResult)) (context r : Ctx),
      (geocodingAgent g).run context = .ok r → hasKey r "prompt" = false) ∧
    (∀ (p : String) (gs : List Agent) (c : Ctx),
      (∀ a ∈ gs, a = disasterTypeAgent ∨ ∃ g, a = geocodingAgent g) →
      Orchestrator.run ⟨gs⟩ p = .ok c →
      lookup c "prompt" = some (Value.str p)) := by
  refine ⟨fun context r h => disasterTypeRun_result_keys context r h,
    fun g context r h => geocodingRun_result_keys g context r h, ?_⟩
  intro p gs c hdef hok
  have hprop : ∀ a ∈ gs, ∀ ctx r, a.run ctx = .ok r → hasKey r "prompt" = false := by
    intro a ha ctx r hr
    rcases hdef a ha with h | ⟨g, h⟩
    · rw [h] at hr
      exact disasterTypeRun_result_keys ctx r hr
    · rw [h] at hr
      exact geocodingRun_result_keys g ctx r hr
  have hpr := runAgents_lookup_prompt gs (initCtx p) c hprop hok
  rw [hpr]
  rfl

/-- Concrete instantiation of `C4_prompt_preserved`: both default agents'
results lack the key "prompt", and the default two-agent pipeline on
"hello" keeps "prompt" mapped to "hello". -/
theorem C4_witness :
    hasKey [("disaster_type", Value.str "flood")] "prompt" = false ∧
    hasKey [("location", Value.null)] "prompt" = false ∧
    lookup [("prompt", Value.str "hello"), ("disaster_type", Value.str "unknown"),
      ("location", Value.null)] "prompt" = some (Value.str "hello") := by
  refine ⟨C4_prompt_preserved.1 (initCtx "flood warning") _ rfl,
    C4_prompt_preserved.2.1 failGeocoder (initCtx "hello") _ rfl,
    C4_prompt_preserved.2.2 "hello" [disasterTypeAgent, geocodingAgent failGeocoder]
      _ ?_ rfl⟩
  intro a ha
  rcases List.mem_cons.mp ha with h | h2
  · exact Or.inl h
  · rcases List.mem_cons.mp h2 with h | h3
    · exact Or.inr ⟨failGeocoder, h⟩
    · exact absurd h3 (List.not_mem_nil a)

/-- Claim C5 is refuted at the prompt "hello" (no disaster keyword, no
location phrase): the pipeline result DOES contain the key
"disaster_type" — DisasterTypeAgent itself maps it to "unknown", so the
default is invented by the agent, not only by the consuming API layer. -/
theorem C5_counterexample :
    Orchestrator.run ⟨[disasterTypeAgent, geocodingAgent failGeocoder]⟩ "hello" =
      .ok [("prompt", Value.str "hello"), ("disaster_type", Value.str "unknown"),
        ("location", Value.null)] ∧
    hasKey [("prompt", Value.str "hello"), ("disaster_type", Value.str "unknown"),
      ("location", Value.null)] "disaster_type" = true :=
  ⟨rfl, rfl⟩

/-- Claim C5 (amended): for every prompt with no disaster keyword and no
extractable location phrase, the default pipeline returns exactly
{"prompt": p, "disaster_type": "unknown", "location": None} — the
"unknown" default is produced by DisasterTypeAgent itself, "location" is
null, and the geocoder is irrelevant (no network request happens). -/
theorem C5_amended_neutral_defaults (p : String)
    (g : String → Except AgentError (Option GeoResult))
    (h1 : searchDisaster p.toList = none)
    (h2 : extractLocationQuery p = none) :
    Orchestrator.run ⟨[disasterTypeAgent, geocodingAgent g]⟩ p =
      .ok [("prompt", Value.str p), ("disaster_type", Value.str "unknown"),
        ("location", Value.null)] := by
  have hd : disasterTypeAgent.run (initCtx p) =
      .ok [("disaster_type", Value.str "unknown")] := by
    show disasterTypeRun (initCtx p) = _
    rw [disasterTypeRun_of_prompt (initCtx p) p rfl]
    unfold disasterTypeValue
    rw [h1]
  have hctx1 : update (initCtx p) [("disaster_type", Value.str "unknown")] =
      [("prompt", Value.str p), ("disaster_type", Value.str "unknown")] := by
    show setKey (initCtx p) "disaster_type" (Value.str "unknown") = _
    unfold initCtx setKey
    rw [if_neg (by decide : ¬ "prompt" = "disaster_type")]
    rfl
  have hg : (geocodingAgent g).run
        [("prompt", Value.str p), ("disaster_type", Value.str "unknown")] =
      .ok [("location", Value.null)] := by
    show geocodingRun g
      [("prompt", Value.str p), ("disaster_type", Value.str "unknown")] = _
    rw [geocodingRun_of_prompt g
      [("prompt", Value.str p), ("disaster_type", Value.str "unknown")] p rfl, h2]
    rfl
  show runAgents [disasterTypeAgent, geocodingAgent g] (initCtx p) = _
  rw [runAgents_cons_ok disasterTypeAgent [geocodingAgent g] (initCtx p) _ hd, hctx1,
    runAgents_cons_ok (geocodingAgent g) [] _ _ hg]
  show Except.ok (setKey
    [("prompt", Value.str p), ("disaster_type", Value.str "unknown")]
    "location" Value.null) = _
  simp [setKey]

/-- Concrete instantiation of `C5_amended_neutral_defaults` at the prompt
"hello" with the always-failing geocoder. -/
theorem C5_amended_witness :
    Orchestrator.run ⟨[disasterTypeAgent, geocodingAgent failGeocoder]⟩ "hello" =
      .ok [("prompt", Value.str "hello"), ("disaster_type", Value.str "unknown"),
        ("location", Value.null)] :=
  C5_amended_neutral_defaults "hello" failGeocoder (by decide) (by decide)

/-- Claim C6: an empty agent list yields exactly {"prompt": p}, for every
prompt p; in particular Orchestrator([]).run("hello") returns exactly
{"prompt": "hello"}. -/
theorem C6_empty_agent_list (p : String) :
    Orchestrator.run ⟨[]⟩ p = .ok [("prompt", Value.str p)] := rfl

/-- Claim C7: the end-to-end scenario on the prompt "A wildfire hitting
Los Angeles after the drought": the disaster-type regex yields
"wildfire", the location heuristic extracts "Los Angeles", and with the
stub geocoder the orchestrator returns exactly the expected context. -/
theorem C7_end_to_end_wildfire :
    Orchestrator.run ⟨[disasterTypeAgent, geocodingAgent stubGeocoder]⟩
      "A wildfire hitting Los Angeles after the drought" =
    .ok [("prompt", Value.str "A wildfire hitting Los Angeles after the drought"),
      ("disaster_type", Value.str "wildfire"),
      ("location", Value.loc "Los Angeles, CA" 34.05 (-118.24))] ∧
    disasterTypeValue "A wildfire hitting Los Angeles after the drought" =
      "wildfire" ∧
    extractLocationQuery "A wildfire hitting Los Angeles after the drought" =
      some "Los Angeles" :=
  ⟨rfl, by decide, by decide⟩

/-- Claim C8: DisasterTypeAgent.run is deterministic in the context
contents: two context dicts with equal contents (the same value, or
jointly none, under every key) produce equal partial results. -/
theorem C8_pure_agent_deterministic (c1 c2 : Ctx)
    (h : ∀ k, lookup c1 k = lookup c2 k) :
    disasterTypeAgent.run c1 = disasterTypeAgent.run c2 := by
  show disasterTypeRun c1 = disasterTypeRun c2
  unfold disasterTypeRun getPrompt
  rw [h "prompt"]

/-- Concrete instantiation of `C8_pure_agent_deterministic`: two distinct
dicts with the same contents yield the same result. -/
theorem C8_witness :
    disasterTypeAgent.run [("prompt", Value.str "flood"), ("extra", Value.null)] =
      disasterTypeAgent.run [("extra", Value.null), ("prompt", Value.str "flood")] :=
  C8_pure_agent_deterministic _ _ (by
    intro k
    by_cases h1 : "prompt" = k
    · rw [← h1]; decide
    · by_cases h2 : "extra" = k
      · rw [← h2]; decide
      · simp [lookup, h1, h2])

/-- Claim C9 is refuted when the value under "prompt" is not a string:
Python's `re.search(None)` raises TypeError, so on the context
{"prompt": None} the agent raises instead of returning a mapping. -/
theorem C9_counterexample :
    disasterTypeAgent.run [("prompt", Value.null)] =
      .error (AgentError.typeError "expected string or bytes-like object") := rfl

/-- Claim C9 (amended): for every context whose "prompt" value is absent
(treated as the empty string) or a string, DisasterTypeAgent.run returns
a mapping with exactly the single key "disaster_type", whose value is one
of the nine strings of DISASTER_TYPES or "unknown", and does not raise;
a non-string "prompt" value instead raises TypeError. -/
theorem C9_amended_result_shape (context : Ctx) (s : String)
    (h : promptStr context = some s) :
    ∃ v, disasterTypeAgent.run context = .ok [("disaster_type", Value.str v)] ∧
      (v ∈ DISASTER_TYPES ∨ v = "unknown") :=
  ⟨disasterTypeValue s,
    by
      show disasterTypeRun context = _
      rw [disasterTypeRun_of_prompt context s (getPrompt_eq_of_promptStr context s h)],
    disasterTypeValue_mem s⟩

/-- Concrete instantiation of `C9_amended_result_shape` on a context whose
prompt is a string. -/
theorem C9_witness :
    promptStr [("prompt", Value.str "Earthquake hits")] = some "Earthquake hits" ∧
    ∃ v, disasterTypeAgent.run [("prompt", Value.str "Earthquake hits")] =
        .ok [("disaster_type", Value.str v)] ∧
      (v ∈ DISASTER_TYPES ∨ v = "unknown") :=
  ⟨rfl, C9_amended_result_shape [("prompt", Value.str "Earthquake hits")]
    "Earthquake hits" rfl⟩

/-- Claim C10: whenever the heuristic extracts no location phrase from
the prompt (the empty string standing in for an absent key),
GeocodingAgent.run returns exactly {"location": None} under EVERY
geocoder — in particular under the always-raising one — so no network
request is made and the external-dependency error branch is unreachable
in this case. -/
theorem C10_no_query_no_network (context : Ctx) (s : String)
    (g : String → Except AgentError (Option GeoResult))
    (h : promptStr context = some s)
    (hq : extractLocationQuery s = none) :
    (geocodingAgent g).run context = .ok [("location", Value.null)] := by
  show geocodingRun g context = _
  rw [geocodingRun_of_prompt g context s (getPrompt_eq_of_promptStr context s h), hq]
  rfl

/-- Concrete instantiation of `C10_no_query_no_network`: on the prompt
"hello" even the always-failing geocoder yields {"location": None}. -/
theorem C10_witness :
    (geocodingAgent failGeocoder).run [("prompt", Value.str "hello")] =
      .ok [("location", Value.null)] :=
  C10_no_query_no_network [("prompt", Value.str "hello")] "hello" failGeocoder
    rfl (by decide)

end OpenDisaster
